import Mathlib

/-!
# gosnmp: the net-snmp packet builder (`gosnmp_netsnmp.go`)

A shallow embedding of `berToSnmpValType`, `verToSnmpVer`, `oidStringToInts`,
`valToString`, `getPktStart` and `netSnmpPduPkt`, together with the properties of
the packet builder that can be settled against that embedding.

Conventions.
* A Go `string` and a Go `[]byte` are sequences of bytes, `List Nat`.
* A Go `error` is its message; `Option.none` is the `nil` error, and for a slice
  result `Option.none` is the `nil` slice.
* Go `int` is taken 64 bits wide (`intSize`); `C.int` is 32 bits, `C.size_t` and
  net-snmp's `oid` are 64 bits.
* The net-snmp C library is not part of the repository: every call into it is a
  field of the structure `NetSnmp`, over which the theorems quantify.
* Allocations (`C.CString`, `C.malloc`, `snmp_pdu_create`) succeed, and the session
  pointer passed to the builder is not nil.
-/

namespace Gosnmp

/-! ## Strings -/

/-- A Go string: an immutable sequence of bytes. -/
abbrev GoString := List Nat

/-- The bytes of an ASCII string literal of the source. -/
def lit (s : String) : GoString := s.toList.map Char.toNat

/-- Go `strings.Split(s, sep)` for a one-byte separator: the maximal runs of bytes
between occurrences of `sep`; the empty string yields one empty component. -/
def Split (s : GoString) (sep : Nat) : List GoString := s.splitOn sep

/-- Go `strings.Join(parts, sep)` for a one-byte separator. -/
def Join (parts : List GoString) (sep : Nat) : GoString := [sep].intercalate parts

/-! ## `strconv.Atoi` -/

/-- Width of the Go `int` type in bits (`strconv.IntSize`). -/
def intSize : Nat := 64

/-- The digit loop of `strconv.ParseUint` in base 10: every byte must be one of
`'0'..'9'`; the value is accumulated most significant digit first. -/
def digitsValue : Nat → GoString → Option Nat
  | n, [] => some n
  | n, ch :: rest =>
    if 48 ≤ ch ∧ ch ≤ 57 then digitsValue (n * 10 + (ch - 48)) rest else none

/-- Go `strconv.Atoi`: an optional sign `'+'` or `'-'`, then one or more decimal
digits, the value lying in the range of `int`. `none` stands for a non-nil error
(syntax or range). -/
def Atoi (s : GoString) : Option Int :=
  match s with
  | [] => none
  | c :: rest =>
    let body := if c = 45 ∨ c = 43 then rest else s
    if body = [] then none
    else
      match digitsValue 0 body with
      | none => none
      | some un =>
        if c = 45 then (if un ≤ 2 ^ (intSize - 1) then some (-(un : Int)) else none)
        else (if un < 2 ^ (intSize - 1) then some (un : Int) else none)

/-- The decimal rendering of a natural number, as bytes (`strconv.Itoa` on a
non-negative argument). -/
def decimal (n : Nat) : GoString := (Nat.repr n).toList.map Char.toNat

/-! ## `oidStringToInts` -/

/-- Source `oidStringToInts`: split on `'.'`, append every component that `Atoi`
accepts, skip the others. -/
def oidStringToInts (s : GoString) : List Int :=
  (Split s 46).foldl
    (fun out oi =>
      match Atoi oi with
      | some tmp => out ++ [tmp]
      | none => out)
    []

/-! ## Package types used by the file -/

/-- Modelled from the spec: the declaration of `Asn1BER` is not in this file. The
kinds are the eleven of the mapping table; `other code` stands for every further
kind of the type (the spec's "…"), all of which are distinct from the eleven. -/
inductive Asn1BER
  | Gauge32
  | Integer
  | OctetString
  | IPAddress
  | ObjectIdentifier
  | Counter32
  | Counter64
  | OpaqueFloat
  | OpaqueDouble
  | TimeTicks
  | Uinteger32
  | other (code : Nat)
  deriving DecidableEq

/-- Modelled from the spec: the declaration of `SnmpVersion` is not in this file.
The versions are V1, V2c, V3; `other code` stands for every further value. -/
inductive SnmpVersion
  | Version1
  | Version2c
  | Version3
  | other (code : Nat)
  deriving DecidableEq

/-- The eleven kinds of the mapping table. -/
def supportedKinds : List Asn1BER :=
  [.Gauge32, .Integer, .OctetString, .IPAddress, .ObjectIdentifier, .Counter32,
   .Counter64, .OpaqueFloat, .OpaqueDouble, .TimeTicks, .Uinteger32]

/-- The three versions `verToSnmpVer` accepts. -/
def supportedVersions : List SnmpVersion := [.Version1, .Version2c, .Version3]

/-- The dynamic value held by the `Value` field (Go type `any`) of a PDU. A value
of any dynamic type not listed is `other text`, `text` being what `%v` prints
for it. -/
inductive GoValue
  | nil
  | bytes (b : List Nat)
  | str (s : GoString)
  | int (n : Int)
  | uint (n : Nat)
  | other (text : GoString)
  deriving DecidableEq

/-- The fields of `SnmpPDU` the file reads (`Type_` is the Go field `Type`). -/
structure SnmpPDU where
  Name : GoString
  Type_ : Asn1BER
  Value : GoValue
  deriving DecidableEq

/-- The fields of `GoSNMP` the file reads. -/
structure GoSNMP where
  Community : GoString
  Version : SnmpVersion
  deriving DecidableEq

/-- Declarations the file uses but does not contain: the `String` methods of the
two enumerations and the constants of the net-snmp headers. -/
structure Decls where
  asn1String : Asn1BER → GoString
  versionString : SnmpVersion → GoString
  SNMP_VERSION_1 : Int
  SNMP_VERSION_2c : Int
  SNMP_VERSION_3 : Int
  SNMP_DEFAULT_VERSION : Int
  SNMP_MSG_SET : Int
  NETSNMP_DS_LIBRARY_ID : Int
  NETSNMP_DS_LIB_REVERSE_ENCODE : Int
  NETSNMP_DEFAULT_ASNENCODING_DIRECTION : Int

/-! ## `berToSnmpValType`, `verToSnmpVer`, `valToString` -/

/-- Source `berToSnmpValType`: the net-snmp type character of a kind, with the
`nil` error, or `0` with the error `"unhandled asn1 ber type" + in.String()`. -/
def berToSnmpValType (D : Decls) (k : Asn1BER) : Nat × Option GoString :=
  match k with
  | .Gauge32 => ('u'.toNat, none)
  | .Integer => ('i'.toNat, none)
  | .OctetString => ('s'.toNat, none)
  | .IPAddress => ('a'.toNat, none)
  | .ObjectIdentifier => ('o'.toNat, none)
  | .Counter32 => ('c'.toNat, none)
  | .Counter64 => ('C'.toNat, none)
  | .OpaqueFloat => ('F'.toNat, none)
  | .OpaqueDouble => ('D'.toNat, none)
  | .TimeTicks => ('t'.toNat, none)
  | .Uinteger32 => ('3'.toNat, none)
  | k => (0, some (lit "unhandled asn1 ber type" ++ D.asn1String k))

/-- Source `verToSnmpVer`: the net-snmp version constant, with the `nil` error, or
`0` with the error `"handled snmp version " + in.String()`. -/
def verToSnmpVer (D : Decls) (v : SnmpVersion) : Int × Option GoString :=
  match v with
  | .Version1 => (D.SNMP_VERSION_1, none)
  | .Version2c => (D.SNMP_VERSION_2c, none)
  | .Version3 => (D.SNMP_VERSION_3, none)
  | v => (0, some (lit "handled snmp version " ++ D.versionString v))

/-- Go `fmt.Sprintf("%v", val)`: the default textual form of a value. A string
prints as itself, a byte slice as the decimal values of its bytes between
brackets, `nil` as `<nil>`. -/
def Sprintv (val : GoValue) : GoString :=
  match val with
  | .nil => lit "<nil>"
  | .bytes b => [91] ++ Join (b.map decimal) 32 ++ [93]
  | .str s => s
  | .int n => if n < 0 then 45 :: decimal n.natAbs else decimal n.natAbs
  | .uint n => decimal n
  | .other text => text

/-- Source `valToString`: for an `OctetString` whose value is a `[]byte`, `val` is
`string(b)`, in every other case it is the value itself; the result is
`fmt.Sprintf("%v", val)`. -/
def valToString (gopdu : SnmpPDU) : GoString :=
  let val : GoValue :=
    match gopdu.Type_ with
    | .OctetString =>
      match gopdu.Value with
      | .bytes b => .str b
      | v => v
    | _ => gopdu.Value
  Sprintv val

/-! ## The net-snmp library and the cgo helpers -/

/-- The fields of `struct snmp_session` that the builder sets, and the two error
fields the library keeps in it; the Go composite literal zeroes the latter. -/
structure CSession where
  version : Int
  community : GoString
  community_len : Nat
  s_errno : Int
  s_snmp_errno : Int

/-- A `netsnmp_pdu`: the fields the builder writes, and the variable list, which
only the library reads and writes. -/
structure CPdu where
  command : Int
  version : Int
  reqid : Int
  varlist : List Nat

/-- What `snmp_add_var` leaves behind: its return value, the PDU, and the
library's diagnostic for the call (the text of `snmp_errno`, which
`snmp_perror` writes to the library's log). -/
structure AddVarResult where
  rv : Int
  pdu : CPdu
  diagnostic : GoString

/-- What `snmp_build` leaves behind: its return value, the three in-out
arguments `pktout` (an address), `pktoutlen` and `pktoutoffset`, the session,
and the bytes of C memory by address. -/
structure BuildResult where
  rv : Int
  pktout : Int
  pktoutlen : Nat
  pktoutoffset : Nat
  sess : CSession
  mem : Int → Nat

/-- The functions of the C library the builder calls. `snmp_error` yields the
string it stores through its last argument (`none` for a null pointer). -/
structure NetSnmp where
  snmp_pdu_create : Int → CPdu
  snmp_add_var : CPdu → List Nat → Nat → Nat → GoString → AddVarResult
  malloc : Nat → Int
  snmp_build : Int → Nat → Nat → CSession → CPdu → BuildResult
  snmp_error : CSession → Option GoString

/-- The library calls a run of the builder makes, in order (allocation and
release of C memory apart). -/
inductive LibCall
  | snmp_enable_stderrlog
  | snmp_set_do_debugging (v : Int)
  | snmp_set_dump_packet (v : Int)
  | debug_register_tokens (tokens : GoString)
  | netsnmp_ds_set_boolean (storeid which value : Int)
  | snmp_pdu_create (command : Int)
  | snmp_add_var
  | snmp_perror (prog_string : Option GoString)
  | snmp_build
  | snmp_error
  deriving DecidableEq

/-- A Go run-time panic of the builder. -/
inductive Panic
  | indexOutOfRange (index length : Nat)
  | gobytesLengthOutOfRange
  deriving DecidableEq

/-- How a call of the builder ends: it returns the pair `([]byte, error)`, `none`
being `nil` on either side, or it panics. -/
inductive Outcome
  | ret (out : Option (List Nat)) (err : Option GoString)
  | panic (p : Panic)
  deriving DecidableEq

/-- A run of the builder: how it ends and which library calls it made. -/
structure Run where
  result : Outcome
  calls : List LibCall
  deriving DecidableEq

/-- Conversion `C.oid(x)` of a Go `int` to net-snmp's `oid` (`u_long`, 64 bits). -/
def C_oid (x : Int) : Nat := (x % 2 ^ 64).toNat

/-- Conversion `C.int(x)` of a `C.size_t` to the 32-bit signed `C.int`. -/
def C_int (x : Nat) : Int :=
  if x % 2 ^ 32 < 2 ^ 31 then ((x % 2 ^ 32 : Nat) : Int) else ((x % 2 ^ 32 : Nat) : Int) - 2 ^ 32

/-- Conversion `C.GoString(p)`: the Go string of a C string, empty for the null pointer. -/
def C_GoString (p : Option GoString) : GoString :=
  match p with
  | none => []
  | some s => s

/-- Copy `C.GoBytes(p, n)`: the `n` bytes of memory from address `p` on; a negative
length panics. -/
def C_GoBytes (mem : Int → Nat) (p : Int) (n : Int) : Except Panic (List Nat) :=
  if n < 0 then .error .gobytesLengthOutOfRange
  else .ok ((List.range n.toNat).map (fun (k : Nat) => mem (p + Int.ofNat k)))

/-- Source `getPktStart` (C): `pkt + len - off`. -/
def getPktStart (pkt : Int) (len off : Nat) : Int := pkt + (len : Int) - (off : Int)

/-- Source `netSnmpEnableLogging`: four library calls. -/
def netSnmpEnableLogging : List LibCall :=
  [.snmp_enable_stderrlog, .snmp_set_do_debugging 1, .snmp_set_dump_packet 1,
   .debug_register_tokens (lit "")]

/-- The loop `for i := range oid { tstoid[i] = C.oid(oid[i]); tstoidcnt++ }` from
index `i` on: an index outside the array panics. -/
def fillOid : List Int → Nat → List Nat → Nat → Except Panic (List Nat × Nat)
  | [], _, tstoid, tstoidcnt => .ok (tstoid, tstoidcnt)
  | x :: rest, i, tstoid, tstoidcnt =>
    if i < tstoid.length then fillOid rest (i + 1) (tstoid.set i (C_oid x)) (tstoidcnt + 1)
    else .error (.indexOutOfRange i tstoid.length)

/-! ## `netSnmpPduPkt` -/

/-- Source `netSnmpPduPkt`. The statements are taken in the order of the source;
`errout` is the local `*C.char`, null from its declaration on, which
`snmp_perror` receives by value and `snmp_error` through its address. -/
def netSnmpPduPkt (D : Decls) (lib : NetSnmp) (_fname : GoString) (gopdu : SnmpPDU)
    (gosess : GoSNMP) (reqid : Nat) (verbose : Bool) : Run :=
  let errout : Option GoString := none
  let oid := oidStringToInts gopdu.Name
  let calls := if verbose then netSnmpEnableLogging else []
  let calls := calls ++ [.netsnmp_ds_set_boolean D.NETSNMP_DS_LIBRARY_ID
    D.NETSNMP_DS_LIB_REVERSE_ENCODE D.NETSNMP_DEFAULT_ASNENCODING_DIRECTION]
  let sess : CSession :=
    { version := D.SNMP_DEFAULT_VERSION, community := gosess.Community,
      community_len := gosess.Community.length, s_errno := 0, s_snmp_errno := 0 }
  let pdu := lib.snmp_pdu_create D.SNMP_MSG_SET
  let calls := calls ++ [.snmp_pdu_create D.SNMP_MSG_SET]
  match verToSnmpVer D gosess.Version with
  | (_, some err) => ⟨.ret none (some err), calls⟩
  | (tmp, none) =>
    let pdu := { pdu with version := tmp, reqid := (reqid : Int) }
    match fillOid oid 0 (List.replicate 1024 0) 0 with
    | .error p => ⟨.panic p, calls⟩
    | .ok (tstoid, tstoidcnt) =>
      let cval := valToString gopdu
      match berToSnmpValType D gopdu.Type_ with
      | (_, some err) => ⟨.ret none (some err), calls⟩
      | (ctype, none) =>
        let a := lib.snmp_add_var pdu tstoid tstoidcnt ctype cval
        let calls := calls ++ [.snmp_add_var]
        if a.rv < 0 then
          let calls := calls ++ [.snmp_perror errout]
          ⟨.ret none (some (lit "net-snmp error: snmp_add_var: " ++ C_GoString errout)), calls⟩
        else
          let sz := 2048
          let b := lib.snmp_build (lib.malloc sz) sz 0 sess a.pdu
          let calls := calls ++ [.snmp_build]
          if b.rv < 0 then
            let errout := lib.snmp_error b.sess
            let calls := calls ++ [.snmp_error]
            ⟨.ret none (some (lit "net-snmp error: snmp_build: " ++ C_GoString errout)), calls⟩
          else
            match C_GoBytes b.mem (getPktStart b.pktout b.pktoutlen b.pktoutoffset)
                (C_int b.pktoutoffset) with
            | .error p => ⟨.panic p, calls⟩
            | .ok bytes => ⟨.ret (some bytes) none, calls⟩

/-! ## Concrete declarations and libraries -/

/-- The constants as net-snmp's headers define them, with `String` methods that
print a kind or version outside the tables by its code. -/
def headerDecls : Decls :=
  { asn1String := fun k =>
      match k with
      | .other code => lit "Asn1BER(" ++ decimal code ++ lit ")"
      | _ => lit "known"
    versionString := fun v =>
      match v with
      | .Version1 => lit "1"
      | .Version2c => lit "2c"
      | .Version3 => lit "3"
      | .other code => lit "SnmpVersion(" ++ decimal code ++ lit ")"
    SNMP_VERSION_1 := 0
    SNMP_VERSION_2c := 1
    SNMP_VERSION_3 := 3
    SNMP_DEFAULT_VERSION := -1
    SNMP_MSG_SET := 163
    NETSNMP_DS_LIBRARY_ID := 0
    NETSNMP_DS_LIB_REVERSE_ENCODE := 20
    NETSNMP_DEFAULT_ASNENCODING_DIRECTION := 1 }

/-- A library whose `snmp_add_var` returns `addRv` and whose `snmp_build` returns
`buildRv`, leaving a buffer of `len` bytes of which the last `off` are written;
the byte at address `a` is `a mod 256`. -/
def sampleLib (addRv buildRv : Int) (len off : Nat) : NetSnmp :=
  { snmp_pdu_create := fun command => ⟨command, -1, 0, []⟩
    snmp_add_var := fun pdu name name_len type value =>
      ⟨addRv, { pdu with varlist := name.take name_len ++ [type] ++ value },
        lit "Value out of range"⟩
    malloc := fun _ => 4096
    snmp_build := fun pktout _ _ sess _ =>
      ⟨buildRv, pktout, len, off, { sess with s_snmp_errno := buildRv },
        fun a => (a % 256).toNat⟩
    snmp_error := fun _ => some (lit "Error building ASN.1 representation") }

/-- A PDU setting the integer 42 at the OID 1.3.6.1.2.1. -/
def samplePdu : SnmpPDU := ⟨lit "1.3.6.1.2.1", .Integer, .int 42⟩

/-- A PDU of kind Integer whose value is the text "abc", which is not a number. -/
def badValuePdu : SnmpPDU := ⟨lit "1.3.6.1.2.1", .Integer, .str (lit "abc")⟩

/-- A version 2c session of community "public". -/
def sampleSession : GoSNMP := ⟨lit "public", .Version2c⟩

/-! ## Lemmas on the OID parser -/

theorem oid_loop_eq (cs : List GoString) (acc : List Int) :
    cs.foldl
      (fun out oi =>
        match Atoi oi with
        | some tmp => out ++ [tmp]
        | none => out) acc = acc ++ cs.filterMap Atoi := by
  induction cs generalizing acc with
  | nil => simp
  | cons c cs ih =>
    simp only [List.foldl_cons, List.filterMap_cons]
    cases h : Atoi c with
    | none => simp [ih]
    | some v => simp [ih]

theorem digitChar_toNat (m : Nat) (h : m < 10) : (Nat.digitChar m).toNat = m + 48 := by
  interval_cases m <;> rfl

theorem toDigitsCore_bytes (fuel : Nat) : ∀ (n : Nat) (ds : List Char), 0 < n → n < fuel →
    (Nat.toDigitsCore 10 fuel n ds).map Char.toNat
      = ((Nat.digits 10 n).reverse.map (· + 48)) ++ ds.map Char.toNat := by
  induction fuel with
  | zero => intro n ds _ h; omega
  | succ fuel ih =>
    intro n ds hpos hlt
    rw [Nat.toDigitsCore]
    have hd : Nat.digits 10 n = (n % 10) :: Nat.digits 10 (n / 10) :=
      Nat.digits_def' (by decide) hpos
    by_cases h0 : n / 10 = 0
    · simp [h0, hd, digitChar_toNat (n % 10) (Nat.mod_lt _ (by decide))]
    · have h1 : 0 < n / 10 := Nat.pos_of_ne_zero h0
      have h2 : n / 10 < fuel := by omega
      simp only [h0, if_false]
      rw [ih (n / 10) _ h1 h2, hd]
      simp [digitChar_toNat (n % 10) (Nat.mod_lt _ (by decide))]

theorem decimal_pos (n : Nat) (h : 0 < n) :
    decimal n = (Nat.digits 10 n).reverse.map (· + 48) := by
  have := toDigitsCore_bytes (n + 1) n [] h (Nat.lt_succ_self n)
  simpa [decimal, Nat.repr, Nat.toDigits] using this

theorem decimal_zero : decimal 0 = [48] := by decide

theorem digitsValue_snoc (l : GoString) (d a : Nat) (hd : d < 10) :
    digitsValue a (l ++ [d + 48]) = (digitsValue a l).map (fun v => v * 10 + d) := by
  induction l generalizing a with
  | nil =>
    have h1 : 48 ≤ d + 48 ∧ d + 48 ≤ 57 := by omega
    simp [digitsValue, h1]
  | cons c l ih =>
    simp only [List.cons_append, digitsValue]
    split
    · exact ih _
    · rfl

theorem digitsValue_digits (L : List Nat) (h : ∀ d ∈ L, d < 10) :
    digitsValue 0 (L.reverse.map (· + 48)) = some (Nat.ofDigits 10 L) := by
  induction L with
  | nil => simp [digitsValue]
  | cons d L ih =>
    have hd : d < 10 := h d (List.mem_cons_self _ _)
    have hL : ∀ e ∈ L, e < 10 := fun e he => h e (List.mem_cons_of_mem _ he)
    simp only [List.reverse_cons, List.map_append, List.map_cons, List.map_nil]
    rw [digitsValue_snoc _ _ _ hd, ih hL]
    simp [Nat.ofDigits_cons]
    omega

theorem digitsValue_decimal (n : Nat) : digitsValue 0 (decimal n) = some n := by
  rcases Nat.eq_zero_or_pos n with h | h
  · subst h; decide
  · rw [decimal_pos n h, digitsValue_digits _ (fun d hd => Nat.digits_lt_base (by decide) hd),
      Nat.ofDigits_digits]

theorem decimal_digit (n c : Nat) (h : c ∈ decimal n) : 48 ≤ c ∧ c ≤ 57 := by
  rcases Nat.eq_zero_or_pos n with h0 | h0
  · subst h0; rw [decimal_zero] at h; simp at h; omega
  · rw [decimal_pos n h0] at h
    simp only [List.mem_map, List.mem_reverse] at h
    obtain ⟨d, hd, rfl⟩ := h
    have := Nat.digits_lt_base (b := 10) (by decide) hd
    omega

theorem decimal_ne_nil (n : Nat) : decimal n ≠ [] := by
  rcases Nat.eq_zero_or_pos n with h0 | h0
  · subst h0; decide
  · rw [decimal_pos n h0]
    simp [Nat.digits_ne_nil_iff_ne_zero]
    omega

theorem Atoi_decimal (n : Nat) (h : n < 2 ^ (intSize - 1)) : Atoi (decimal n) = some (Int.ofNat n) := by
  have hv := digitsValue_decimal n
  cases hs : decimal n with
  | nil => exact absurd hs (decimal_ne_nil n)
  | cons c rest =>
    have hc : 48 ≤ c ∧ c ≤ 57 := decimal_digit n c (by rw [hs]; exact List.mem_cons_self _ _)
    have h1 : ¬ (c = 45 ∨ c = 43) := by omega
    have h2 : c ≠ 45 := by omega
    have h3 : c ≠ 43 := by omega
    rw [hs] at hv
    simp [Atoi, h2, h3, hv, h]

theorem oidStringToInts_eq_filterMap (s : GoString) :
    oidStringToInts s = (Split s 46).filterMap Atoi := by
  simp [oidStringToInts, oid_loop_eq]

theorem Split_Join_decimal (xs : List Nat) (h : xs ≠ []) :
    Split (Join (xs.map decimal) 46) 46 = xs.map decimal := by
  unfold Split Join
  apply List.splitOn_intercalate
  · intro l hl h46
    obtain ⟨n, _, rfl⟩ := List.mem_map.mp hl
    have := decimal_digit n 46 h46
    omega
  · simpa using h

theorem filterMap_Atoi_decimal (xs : List Nat) (h : ∀ x ∈ xs, x < 2 ^ (intSize - 1)) :
    (xs.map decimal).filterMap Atoi = xs.map Int.ofNat := by
  induction xs with
  | nil => rfl
  | cons x xs ih =>
    have hx := Atoi_decimal x (h x (List.mem_cons_self _ _))
    have hxs := ih (fun y hy => h y (List.mem_cons_of_mem _ hy))
    simp only [List.map_cons, List.filterMap_cons, hx, hxs]

theorem oidStringToInts_Join_decimal (xs : List Nat) (h : ∀ x ∈ xs, x < 2 ^ (intSize - 1)) :
    oidStringToInts (Join (xs.map decimal) 46) = xs.map Int.ofNat := by
  rw [oidStringToInts_eq_filterMap]
  by_cases hxs : xs = []
  · subst hxs; decide
  · rw [Split_Join_decimal xs hxs, filterMap_Atoi_decimal xs h]

theorem Atoi_nonneg (c : GoString) (v : Int) (h : Atoi c = some v) (hc : c.head? ≠ some 45) :
    0 ≤ v := by
  cases c with
  | nil => simp [Atoi] at h
  | cons a rest =>
    have ha : a ≠ 45 := by simpa using hc
    unfold Atoi at h
    simp only [ha, false_or, if_false] at h
    by_cases hb : (if a = 43 then rest else a :: rest) = []
    · simp [hb] at h
    · simp only [hb, if_false] at h
      cases hd : digitsValue 0 (if a = 43 then rest else a :: rest) with
      | none => simp [hd] at h
      | some un =>
        simp only [hd] at h
        by_cases hr : un < 2 ^ (intSize - 1)
        · simp only [hr, if_true, Option.some.injEq] at h
          rw [← h]; exact Int.ofNat_nonneg _
        · simp [hr] at h

/-! ## Lemmas on the builder -/

theorem fillOid_ok (oid : List Int) : ∀ (i : Nat) (t : List Nat) (c : Nat),
    i + oid.length ≤ t.length →
    ∃ t2, fillOid oid i t c = .ok (t2, c + oid.length) ∧ t2.length = t.length := by
  induction oid with
  | nil => intro i t c _; exact ⟨t, rfl, rfl⟩
  | cons x rest ih =>
    intro i t c h
    simp only [List.length_cons] at h
    have hi : i < t.length := by omega
    obtain ⟨t2, h2, hl⟩ := ih (i + 1) (t.set i (C_oid x)) (c + 1) (by simp; omega)
    refine ⟨t2, ?_, by simpa using hl⟩
    simp only [fillOid, hi, if_true, h2, List.length_cons]
    congr 2
    omega

theorem fillOid_panic (oid : List Int) : ∀ (i : Nat) (t : List Nat) (c : Nat),
    i ≤ t.length → t.length < i + oid.length →
    fillOid oid i t c = .error (.indexOutOfRange t.length t.length) := by
  induction oid with
  | nil => intro i t c h1 h2; simp at h2; omega
  | cons x rest ih =>
    intro i t c h1 h2
    simp only [List.length_cons] at h2
    by_cases hi : i < t.length
    · have := ih (i + 1) (t.set i (C_oid x)) (c + 1) (by simp; omega) (by simp; omega)
      simp only [fillOid, hi, if_true, this, List.length_set]
    · have : i = t.length := by omega
      subst this
      simp [fillOid]

theorem verToSnmpVer_supported (D : Decls) (v : SnmpVersion) (h : v ∈ supportedVersions) :
    ∃ tmp, verToSnmpVer D v = (tmp, none) := by
  simp only [supportedVersions, List.mem_cons, List.mem_singleton, List.not_mem_nil,
    or_false] at h
  rcases h with h | h | h <;> subst h
  · exact ⟨_, rfl⟩
  · exact ⟨_, rfl⟩
  · exact ⟨_, rfl⟩

theorem verToSnmpVer_unsupported (D : Decls) (v : SnmpVersion) (h : v ∉ supportedVersions) :
    verToSnmpVer D v = (0, some (lit "handled snmp version " ++ D.versionString v)) := by
  cases v with
  | other n => rfl
  | _ => simp [supportedVersions] at h

theorem berToSnmpValType_unsupported (D : Decls) (k : Asn1BER) (h : k ∉ supportedKinds) :
    berToSnmpValType D k = (0, some (lit "unhandled asn1 ber type" ++ D.asn1String k)) := by
  cases k with
  | other n => rfl
  | _ => simp [supportedKinds] at h

theorem berToSnmpValType_supported (D : Decls) (k : Asn1BER) (h : k ∈ supportedKinds) :
    ∃ ctype, berToSnmpValType D k = (ctype, none) := by
  cases k with
  | other n => simp [supportedKinds] at h
  | _ => exact ⟨_, rfl⟩

/-! ## Value classifier and OID parser: main results -/

/-- C1: for each of the eleven supported kinds `berToSnmpValType` returns the tag
of the mapping table together with the nil error: Gauge32 'u', Integer 'i',
OctetString 's', IPAddress 'a', ObjectIdentifier 'o', Counter32 'c', Counter64 'C',
OpaqueFloat 'F', OpaqueDouble 'D', TimeTicks 't', Uinteger32 '3'. -/
theorem berToSnmpValType_table (D : Decls) :
    berToSnmpValType D .Gauge32 = ('u'.toNat, none) ∧
    berToSnmpValType D .Integer = ('i'.toNat, none) ∧
    berToSnmpValType D .OctetString = ('s'.toNat, none) ∧
    berToSnmpValType D .IPAddress = ('a'.toNat, none) ∧
    berToSnmpValType D .ObjectIdentifier = ('o'.toNat, none) ∧
    berToSnmpValType D .Counter32 = ('c'.toNat, none) ∧
    berToSnmpValType D .Counter64 = ('C'.toNat, none) ∧
    berToSnmpValType D .OpaqueFloat = ('F'.toNat, none) ∧
    berToSnmpValType D .OpaqueDouble = ('D'.toNat, none) ∧
    berToSnmpValType D .TimeTicks = ('t'.toNat, none) ∧
    berToSnmpValType D .Uinteger32 = ('3'.toNat, none) :=
  ⟨rfl, rfl, rfl, rfl, rfl, rfl, rfl, rfl, rfl, rfl, rfl⟩

/-- C2: round trip of `oidStringToInts`: for every list `xs` of non-negative
integers that fit a Go `int`, parsing their decimal renderings joined with '.'
returns exactly `xs`, in the same order and with the same length. -/
theorem oidStringToInts_roundtrip (xs : List Nat) (h : ∀ x ∈ xs, x < 2 ^ 63) :
    oidStringToInts (Join (xs.map decimal) 46) = xs.map Int.ofNat ∧
    (oidStringToInts (Join (xs.map decimal) 46)).length = xs.length := by
  have key := oidStringToInts_Join_decimal xs h
  exact ⟨key, by rw [key, List.length_map]⟩

/-- C2, at the OID 1.3.6.1.2.1 and at the empty list: the rendering is the text
"1.3.6.1.2.1", respectively "", and parsing gives the list back. -/
theorem oidStringToInts_roundtrip_witness :
    (∀ x ∈ [1, 3, 6, 1, 2, 1], x < 2 ^ 63) ∧
    Join ([1, 3, 6, 1, 2, 1].map decimal) 46 = lit "1.3.6.1.2.1" ∧
    (oidStringToInts (Join ([1, 3, 6, 1, 2, 1].map decimal) 46)
        = [1, 3, 6, 1, 2, 1].map Int.ofNat ∧
      (oidStringToInts (Join ([1, 3, 6, 1, 2, 1].map decimal) 46)).length
        = [1, 3, 6, 1, 2, 1].length) ∧
    Join (([] : List Nat).map decimal) 46 = lit "" ∧
    (oidStringToInts (Join (([] : List Nat).map decimal) 46) = ([] : List Nat).map Int.ofNat ∧
      (oidStringToInts (Join (([] : List Nat).map decimal) 46)).length
        = ([] : List Nat).length) :=
  ⟨by decide, by decide, oidStringToInts_roundtrip [1, 3, 6, 1, 2, 1] (by decide),
    by decide, oidStringToInts_roundtrip [] (by simp)⟩

/-- C3: for every input string `oidStringToInts` returns exactly the values of the
'.'-separated components that `Atoi` accepts, in their original order; a
component that does not parse is dropped and no error is raised, so the result
is never longer than the list of components. "1.a.3" gives [1,3], "" gives []. -/
theorem oidStringToInts_components :
    (∀ s : GoString, oidStringToInts s = (Split s 46).filterMap Atoi ∧
      (oidStringToInts s).length ≤ (Split s 46).length) ∧
    oidStringToInts (lit "1.a.3") = [1, 3] ∧
    oidStringToInts (lit "") = [] := by
  refine ⟨fun s => ⟨oidStringToInts_eq_filterMap s, ?_⟩, by decide, by decide⟩
  rw [oidStringToInts_eq_filterMap]
  exact List.length_filterMap_le _ _

/-- C4, as stated, fails: the component "-5" parses, so the OID string "1.-5"
yields the negative element -5. -/
theorem oidStringToInts_negative_element :
    oidStringToInts (lit "1.-5") = [1, -5] ∧
    ¬ (∀ v ∈ oidStringToInts (lit "1.-5"), (0 : Int) ≤ v) := by
  refine ⟨by decide, ?_⟩
  intro h
  have h5 : (-5 : Int) ∈ oidStringToInts (lit "1.-5") := by decide
  exact absurd (h (-5) h5) (by decide)

/-- C4, amended: for every input string none of whose '.'-separated components
begins with the minus sign, every element returned by `oidStringToInts` is a
non-negative integer. -/
theorem oidStringToInts_nonneg (s : GoString)
    (h : ∀ c ∈ Split s 46, c.head? ≠ some 45) :
    ∀ v ∈ oidStringToInts s, (0 : Int) ≤ v := by
  intro v hv
  rw [oidStringToInts_eq_filterMap, List.mem_filterMap] at hv
  obtain ⟨c, hc, hcv⟩ := hv
  exact Atoi_nonneg c v hcv (h c hc)

/-- C4, amended, at the OID string "1.3.6". -/
theorem oidStringToInts_nonneg_witness :
    (∀ c ∈ Split (lit "1.3.6") 46, c.head? ≠ some 45) ∧
    ∀ v ∈ oidStringToInts (lit "1.3.6"), (0 : Int) ≤ v :=
  ⟨by decide, oidStringToInts_nonneg (lit "1.3.6") (by decide)⟩

/-- C5: `valToString` follows the two-branch rule: an `OctetString` PDU whose value
is a byte sequence `b` gives `b` read as text (bytes 0x68 0x69 give "hi"); every
other PDU gives the default textual form of its value, whatever its type (the
same two bytes under type `Integer` give "[104 105]"). -/
theorem valToString_two_branch :
    (∀ (name : GoString) (b : List Nat),
      valToString ⟨name, .OctetString, .bytes b⟩ = b) ∧
    (∀ gopdu : SnmpPDU,
      ¬ (gopdu.Type_ = .OctetString ∧ ∃ b, gopdu.Value = .bytes b) →
      valToString gopdu = Sprintv gopdu.Value) ∧
    valToString ⟨lit "1.3.6", .OctetString, .bytes [0x68, 0x69]⟩ = lit "hi" ∧
    valToString ⟨lit "1.3.6", .Integer, .bytes [0x68, 0x69]⟩ = lit "[104 105]" := by
  refine ⟨fun _ _ => rfl, ?_, by decide, by decide⟩
  intro gopdu h
  obtain ⟨name, t, v⟩ := gopdu
  cases t <;> try rfl
  cases v <;> first | rfl | exact absurd ⟨rfl, _, rfl⟩ h

/-- C5, at an `OctetString` PDU holding a Go string and at an `Integer` PDU holding
bytes: both take the default textual form. -/
theorem valToString_two_branch_witness :
    valToString ⟨lit "1.3.6", .OctetString, .str (lit "hi")⟩ = Sprintv (.str (lit "hi")) ∧
    valToString ⟨lit "1.3.6", .Integer, .bytes [1, 2]⟩ = Sprintv (.bytes [1, 2]) :=
  ⟨valToString_two_branch.2.1 ⟨lit "1.3.6", .OctetString, .str (lit "hi")⟩ (by simp),
   valToString_two_branch.2.1 ⟨lit "1.3.6", .Integer, .bytes [1, 2]⟩ (by simp)⟩

/-! ## The packet builder: main results -/

/-- C6: `verToSnmpVer` returns an error exactly when the version is none of
Version1, Version2c, Version3, and `netSnmpPduPkt`, called with a session of such
a version, returns that error and the nil slice, for every PDU, request id and
verbose flag. -/
theorem unsupported_version_error (D : Decls) (lib : NetSnmp) (fname : GoString)
    (gopdu : SnmpPDU) (gosess : GoSNMP) (reqid : Nat) (verbose : Bool)
    (h : gosess.Version ∉ supportedVersions) :
    (∀ v, (verToSnmpVer D v).2 ≠ none ↔ v ∉ supportedVersions) ∧
    (verToSnmpVer D gosess.Version).2
      = some (lit "handled snmp version " ++ D.versionString gosess.Version) ∧
    (netSnmpPduPkt D lib fname gopdu gosess reqid verbose).result
      = .ret none (verToSnmpVer D gosess.Version).2 := by
  refine ⟨?_, ?_, ?_⟩
  · intro v
    by_cases hv : v ∈ supportedVersions
    · obtain ⟨tmp, ht⟩ := verToSnmpVer_supported D v hv
      simp [ht, hv]
    · simp [verToSnmpVer_unsupported D v hv, hv]
  · rw [verToSnmpVer_unsupported D _ h]
  · simp only [netSnmpPduPkt, verToSnmpVer_unsupported D _ h]

/-- C6, at a session whose version is the unknown value 7. -/
theorem unsupported_version_error_witness :
    (SnmpVersion.other 7) ∉ supportedVersions ∧
    (netSnmpPduPkt headerDecls (sampleLib 0 0 2048 3) [] samplePdu
        ⟨lit "public", .other 7⟩ 12345 true).result
      = .ret none (verToSnmpVer headerDecls (.other 7)).2 :=
  ⟨by decide,
   (unsupported_version_error headerDecls (sampleLib 0 0 2048 3) [] samplePdu
      ⟨lit "public", .other 7⟩ 12345 true (by decide)).2.2⟩

/-- C7: `berToSnmpValType` returns an error for every kind outside the eleven of
the table, and for a session of a supported version and a PDU of such a kind whose
name parses to at most 1024 subidentifiers `netSnmpPduPkt` returns that error and
the nil slice, having called neither `snmp_add_var` nor `snmp_build`. -/
theorem unsupported_kind_error (D : Decls) (lib : NetSnmp) (fname : GoString)
    (gopdu : SnmpPDU) (gosess : GoSNMP) (reqid : Nat) (verbose : Bool)
    (hv : gosess.Version ∈ supportedVersions)
    (hk : gopdu.Type_ ∉ supportedKinds)
    (ho : (oidStringToInts gopdu.Name).length ≤ 1024) :
    (∀ k, k ∉ supportedKinds → (berToSnmpValType D k).2
      = some (lit "unhandled asn1 ber type" ++ D.asn1String k)) ∧
    (netSnmpPduPkt D lib fname gopdu gosess reqid verbose).result
      = .ret none (some (lit "unhandled asn1 ber type" ++ D.asn1String gopdu.Type_)) ∧
    LibCall.snmp_add_var ∉ (netSnmpPduPkt D lib fname gopdu gosess reqid verbose).calls ∧
    LibCall.snmp_build ∉ (netSnmpPduPkt D lib fname gopdu gosess reqid verbose).calls := by
  obtain ⟨tmp, ht⟩ := verToSnmpVer_supported D _ hv
  obtain ⟨t2, hf, _⟩ := fillOid_ok (oidStringToInts gopdu.Name) 0 (List.replicate 1024 0) 0
    (by rw [List.length_replicate]; omega)
  have hb := berToSnmpValType_unsupported D _ hk
  refine ⟨fun k h => by rw [berToSnmpValType_unsupported D k h], ?_, ?_, ?_⟩
  · simp only [netSnmpPduPkt, ht, hf, hb]
  · simp only [netSnmpPduPkt, ht, hf, hb]
    cases verbose <;> simp [netSnmpEnableLogging]
  · simp only [netSnmpPduPkt, ht, hf, hb]
    cases verbose <;> simp [netSnmpEnableLogging]

/-- C7, at a PDU of the unknown kind 5 under a version 2c session. -/
theorem unsupported_kind_error_witness :
    sampleSession.Version ∈ supportedVersions ∧
    (Asn1BER.other 5) ∉ supportedKinds ∧
    (oidStringToInts (lit "1.3.6")).length ≤ 1024 ∧
    (netSnmpPduPkt headerDecls (sampleLib 0 0 2048 3) [] ⟨lit "1.3.6", .other 5, .int 42⟩
        sampleSession 12345 false).result
      = .ret none (some (lit "unhandled asn1 ber type" ++ headerDecls.asn1String (.other 5))) :=
  ⟨by decide, by decide, by decide,
   (unsupported_kind_error headerDecls (sampleLib 0 0 2048 3) [] ⟨lit "1.3.6", .other 5, .int 42⟩
      sampleSession 12345 false (by decide) (by decide) (by decide)).2.1⟩

/-- C8, what the code does: for a session of a supported version and a PDU whose
name parses to more than 1024 subidentifiers, `netSnmpPduPkt` does not return: the
store `tstoid[1024]` panics with an index out of range. -/
theorem oid_too_long_panics (D : Decls) (lib : NetSnmp) (fname : GoString)
    (gopdu : SnmpPDU) (gosess : GoSNMP) (reqid : Nat) (verbose : Bool)
    (hv : gosess.Version ∈ supportedVersions)
    (ho : 1024 < (oidStringToInts gopdu.Name).length) :
    (netSnmpPduPkt D lib fname gopdu gosess reqid verbose).result
      = .panic (.indexOutOfRange 1024 1024) := by
  obtain ⟨tmp, ht⟩ := verToSnmpVer_supported D _ hv
  have hf := fillOid_panic (oidStringToInts gopdu.Name) 0 (List.replicate 1024 0) 0
    (Nat.zero_le _) (by rw [List.length_replicate]; omega)
  rw [List.length_replicate] at hf
  simp only [netSnmpPduPkt, ht, hf]

/-- C8, at the name made of 1025 components "0" under a version 2c session. -/
theorem oid_too_long_panics_witness :
    sampleSession.Version ∈ supportedVersions ∧
    1024 < (oidStringToInts (Join ((List.replicate 1025 0).map decimal) 46)).length ∧
    (netSnmpPduPkt headerDecls (sampleLib 0 0 2048 3) []
        ⟨Join ((List.replicate 1025 0).map decimal) 46, .Integer, .int 42⟩
        sampleSession 12345 false).result
      = .panic (.indexOutOfRange 1024 1024) :=
  have hlen : 1024 < (oidStringToInts (Join ((List.replicate 1025 0).map decimal) 46)).length := by
    rw [oidStringToInts_Join_decimal _ (fun x hx => by
      rw [List.eq_of_mem_replicate hx]; decide)]
    simp only [List.length_map, List.length_replicate]
    decide
  ⟨by decide, hlen,
   oid_too_long_panics headerDecls (sampleLib 0 0 2048 3) []
      ⟨Join ((List.replicate 1025 0).map decimal) 46, .Integer, .int 42⟩
      sampleSession 12345 false (by decide) hlen⟩

/-- C9, what the code does when `snmp_add_var` fails: `netSnmpPduPkt` returns the
nil slice and an error whose message is the bare prefix
"net-snmp error: snmp_add_var: ", whatever diagnostic the library holds for the
failure. -/
theorem add_var_failure_message (D : Decls) (lib : NetSnmp) (fname : GoString)
    (gopdu : SnmpPDU) (gosess : GoSNMP) (reqid : Nat) (verbose : Bool)
    (tmp : Int) (tstoid : List Nat) (tstoidcnt ctype : Nat)
    (hv : verToSnmpVer D gosess.Version = (tmp, none))
    (ho : fillOid (oidStringToInts gopdu.Name) 0 (List.replicate 1024 0) 0
      = .ok (tstoid, tstoidcnt))
    (hk : berToSnmpValType D gopdu.Type_ = (ctype, none))
    (ha : (lib.snmp_add_var
        { lib.snmp_pdu_create D.SNMP_MSG_SET with version := tmp, reqid := (reqid : Int) }
        tstoid tstoidcnt ctype (valToString gopdu)).rv < 0) :
    (netSnmpPduPkt D lib fname gopdu gosess reqid verbose).result
      = .ret none (some (lit "net-snmp error: snmp_add_var: ")) := by
  simp only [netSnmpPduPkt, hv, ho, hk, ha, if_true, C_GoString, List.append_nil]

set_option maxRecDepth 100000 in
/-- C9, at an Integer PDU of value "abc" and a library whose `snmp_add_var` fails
with the diagnostic "Value out of range": the message returned is not the prefix
followed by that diagnostic. -/
theorem add_var_failure_message_witness :
    ((sampleLib (-1) 0 2048 3).snmp_add_var
        { (sampleLib (-1) 0 2048 3).snmp_pdu_create headerDecls.SNMP_MSG_SET with
          version := 1, reqid := ((12345 : Nat) : Int) }
        ([1, 3, 6, 1, 2, 1] ++ List.replicate 1018 0) 6 105 (valToString badValuePdu)).rv < 0 ∧
    (netSnmpPduPkt headerDecls (sampleLib (-1) 0 2048 3) [] badValuePdu sampleSession
        12345 false).result
      = .ret none (some (lit "net-snmp error: snmp_add_var: ")) ∧
    (netSnmpPduPkt headerDecls (sampleLib (-1) 0 2048 3) [] badValuePdu sampleSession
        12345 false).result
      ≠ .ret none (some (lit "net-snmp error: snmp_add_var: " ++ lit "Value out of range")) :=
  ⟨by decide,
   add_var_failure_message headerDecls (sampleLib (-1) 0 2048 3) [] badValuePdu sampleSession
      12345 false 1 ([1, 3, 6, 1, 2, 1] ++ List.replicate 1018 0) 6 105
      (by decide) (by rfl) (by decide) (by decide),
   by decide⟩

/-- The sibling path of C9: when `snmp_build` fails, the message is the prefix
"net-snmp error: snmp_build: " followed by the string `snmp_error` stored, and
the slice is nil. -/
theorem build_failure_message (D : Decls) (lib : NetSnmp) (fname : GoString)
    (gopdu : SnmpPDU) (gosess : GoSNMP) (reqid : Nat) (verbose : Bool)
    (tmp : Int) (tstoid : List Nat) (tstoidcnt ctype : Nat) (a : AddVarResult)
    (b : BuildResult)
    (hv : verToSnmpVer D gosess.Version = (tmp, none))
    (ho : fillOid (oidStringToInts gopdu.Name) 0 (List.replicate 1024 0) 0
      = .ok (tstoid, tstoidcnt))
    (hk : berToSnmpValType D gopdu.Type_ = (ctype, none))
    (ha : lib.snmp_add_var
        { lib.snmp_pdu_create D.SNMP_MSG_SET with version := tmp, reqid := (reqid : Int) }
        tstoid tstoidcnt ctype (valToString gopdu) = a)
    (har : 0 ≤ a.rv)
    (hb : lib.snmp_build (lib.malloc 2048) 2048 0
        ⟨D.SNMP_DEFAULT_VERSION, gosess.Community, gosess.Community.length, 0, 0⟩ a.pdu = b)
    (hbr : b.rv < 0) :
    (netSnmpPduPkt D lib fname gopdu gosess reqid verbose).result
      = .ret none (some (lit "net-snmp error: snmp_build: "
          ++ C_GoString (lib.snmp_error b.sess))) := by
  simp only [netSnmpPduPkt, hv, ho, hk, ha, hb, not_lt.mpr har, hbr, if_true, if_false]

theorem C_int_of_lt (x : Nat) (h : x < 2 ^ 31) : C_int x = (x : Int) := by
  have h1 : x % 2 ^ 32 = x := Nat.mod_eq_of_lt (by omega)
  simp only [C_int, h1, h, if_true]

/-- C10: on success `netSnmpPduPkt` returns exactly the written region of the build
buffer. With `len` and `off` the buffer length and written-byte count left by the
build step on the 2048-byte allocation (`len = 2048`, `off <= len`), the result
has length `off` and is the buffer's bytes at the indices `len - off`, ...,
`len - 1` in order: the tail of the buffer, nothing from its unused head. -/
theorem written_region (D : Decls) (lib : NetSnmp) (fname : GoString)
    (gopdu : SnmpPDU) (gosess : GoSNMP) (reqid : Nat) (verbose : Bool)
    (tmp : Int) (tstoid : List Nat) (tstoidcnt ctype : Nat) (a : AddVarResult)
    (b : BuildResult)
    (hv : verToSnmpVer D gosess.Version = (tmp, none))
    (ho : fillOid (oidStringToInts gopdu.Name) 0 (List.replicate 1024 0) 0
      = .ok (tstoid, tstoidcnt))
    (hk : berToSnmpValType D gopdu.Type_ = (ctype, none))
    (ha : lib.snmp_add_var
        { lib.snmp_pdu_create D.SNMP_MSG_SET with version := tmp, reqid := (reqid : Int) }
        tstoid tstoidcnt ctype (valToString gopdu) = a)
    (har : 0 ≤ a.rv)
    (hb : lib.snmp_build (lib.malloc 2048) 2048 0
        ⟨D.SNMP_DEFAULT_VERSION, gosess.Community, gosess.Community.length, 0, 0⟩ a.pdu = b)
    (hbr : 0 ≤ b.rv)
    (hlen : b.pktoutlen = 2048)
    (hoff : b.pktoutoffset ≤ b.pktoutlen) :
    ∃ out : List Nat,
      (netSnmpPduPkt D lib fname gopdu gosess reqid verbose).result = .ret (some out) none ∧
      out.length = b.pktoutoffset ∧
      out = (List.range b.pktoutoffset).map
        (fun k => b.mem (b.pktout + ((b.pktoutlen - b.pktoutoffset + k : Nat) : Int))) := by
  refine ⟨_, ?_, by simp, rfl⟩
  have h31 : b.pktoutoffset < 2 ^ 31 := by
    have h2048 : b.pktoutoffset ≤ 2048 := hlen ▸ hoff
    exact Nat.lt_of_le_of_lt h2048 (by decide)
  have hneg : ¬ ((b.pktoutoffset : Int) < 0) := by omega
  simp only [netSnmpPduPkt, hv, ho, hk, ha, hb, not_lt.mpr har, not_lt.mpr hbr, if_false,
    C_int_of_lt _ h31, C_GoBytes, hneg, Int.toNat_ofNat, getPktStart]
  congr 2
  apply List.map_congr_left
  intro k _
  congr 1
  simp only [Int.ofNat_eq_coe]
  omega

set_option maxRecDepth 100000 in
/-- C10, at a build step that writes the last three bytes of the 2048-byte buffer
allocated at address 4096: the result is the bytes at the addresses 6141, 6142,
6143, that is 253, 254, 255. -/
theorem written_region_witness :
    (netSnmpPduPkt headerDecls (sampleLib 0 0 2048 3) [] samplePdu sampleSession
      12345 false).result = .ret (some [253, 254, 255]) none := by
  obtain ⟨out, hres, _, hout⟩ :=
    written_region headerDecls (sampleLib 0 0 2048 3) [] samplePdu sampleSession 12345 false
      1 ([1, 3, 6, 1, 2, 1] ++ List.replicate 1018 0) 6 105 _
      ((sampleLib 0 0 2048 3).snmp_build 4096 2048 0
        ⟨-1, lit "public", 6, 0, 0⟩
        ((sampleLib 0 0 2048 3).snmp_add_var
          { (sampleLib 0 0 2048 3).snmp_pdu_create headerDecls.SNMP_MSG_SET with
            version := 1, reqid := ((12345 : Nat) : Int) }
          ([1, 3, 6, 1, 2, 1] ++ List.replicate 1018 0) 6 105 (valToString samplePdu)).pdu)
      (by decide) (by rfl) (by decide) rfl (by decide) rfl (by decide) rfl (by decide)
  have h3 : out = [253, 254, 255] := by rw [hout]; decide
  rw [← h3]
  exact hres

end Gosnmp
